import Mathlib

/-!
Verification of the LANShare peer-to-peer transport subsystem.

This file gives a shallow embedding, in Lean 4, of the parts of the Go
sources that the specification's claims are about:

- src/network.go      — crypto wrappers, inbound handshake handling,
                        the message dispatch pipeline, per-peer sends;
- src/discovery.go    — the UDP discovery message handler;
- src/filetransfer.go — the chunked file transfer engine.

Go byte slices become lists of naturals, Go maps become association
lists, Go struct mutation becomes functional record update, and the
side effects of each handler (connections closed, messages written,
files appended) are returned explicitly in a result record.  Machine
integers are modelled as Int (Go int / int64); none of the verified
code paths can overflow 64 bits, so no modular reduction is applied.
The AES-GCM primitive and the curve25519 scalar multiplication live in
external libraries (Go crypto/*), not in this repository; they are
modelled symbolically, as documented at their definitions.
-/

namespace LANShare

/-- Byte strings (Go []byte) are modelled as lists of naturals. -/
abbrev Bytes := List Nat

/-- Byte sequence of a Go string (codepoints; all IDs, names and
addresses in the protocol are ASCII, where Go's UTF-8 bytes and
codepoints coincide). -/
def goBytes (s : String) : Bytes := s.data.map Char.toNat

/-- Bytewise lexicographic order, Go's s < t comparison on strings. -/
def bytesLt : Bytes → Bytes → Bool
  | [], [] => false
  | [], _ :: _ => true
  | _ :: _, [] => false
  | a :: as, b :: bs => if a < b then true else if b < a then false else bytesLt as bs

/-- Go's lexicographic string comparison, used for the deterministic
duplicate-connection tie break (node.ID < peer.ID in network.go). -/
def goStringLt (s t : String) : Bool := bytesLt (goBytes s) (goBytes t)

/-! ### Symbolic AEAD model

The Go code encrypts with AES-256-GCM through crypto/aes and
crypto/cipher (network.go, encryptMessage / decryptMessage).  Those
primitives are external library code, not part of this repository.

Modelled from the spec: the AEAD contract of section 4.1 — seal
produces a ciphertext bound to (key, nonce, plaintext); open returns
the plaintext exactly when key, nonce and ciphertext match a seal, and
fails otherwise.  The model keeps GCM's concrete shape: the ciphertext
is the keystream-masked plaintext followed by an authentication tag
(GCM appends a 16-byte tag; the model appends one list element).  The
tag is an injective encoding of (key, nonce, masked body), an
idealization of GCM authenticity: a real 128-bit tag admits forgeries
with probability 2^-128, which the symbolic model rounds to zero. -/

/-- Injective encoding of a byte list into a natural, via the Cantor
pairing function.  Used to build the symbolic authentication tag. -/
def encodeBytes (l : Bytes) : Nat := Nat.pair l.length (l.foldr Nat.pair 0)

/-- Symbolic GCM keystream byte at position i for a key/nonce pair. -/
def keystream (key nonce : Bytes) (i : Nat) : Nat :=
  encodeBytes key ^^^ (encodeBytes nonce ^^^ i)

/-- Mask a byte list with the keystream starting at position i.  This
models CTR-mode encryption; it is an involution. -/
def maskBytes (key nonce : Bytes) : Nat → Bytes → Bytes
  | _, [] => []
  | i, b :: bs => (b ^^^ keystream key nonce i) :: maskBytes key nonce (i + 1) bs

/-- Symbolic authentication tag over the key, the nonce and the masked
body, mirroring GHASH's binding of the tag to all three. -/
def gcmTag (key nonce body : Bytes) : Nat :=
  Nat.pair (encodeBytes key) (Nat.pair (encodeBytes nonce) (encodeBytes body))

/-- Symbolic aesGCM.Seal: masked plaintext followed by the tag. -/
def gcmSeal (key nonce pt : Bytes) : Bytes :=
  maskBytes key nonce 0 pt ++ [gcmTag key nonce (maskBytes key nonce 0 pt)]

/-- Symbolic aesGCM.Open: check the trailing tag against the key, the
nonce and the body; unmask on success, fail otherwise. -/
def gcmOpen (key nonce ct : Bytes) : Except String Bytes :=
  match ct.getLast? with
  | none => .error "cipher: message authentication failed"
  | some tag =>
    if gcmTag key nonce ct.dropLast = tag then
      .ok (maskBytes key nonce 0 ct.dropLast)
    else
      .error "cipher: message authentication failed"

/-- GCM nonce size in bytes (aesGCM.NonceSize() for standard GCM). -/
def gcmNonceSize : Nat := 12

/-- Embeds encryptMessage (network.go 49-64).  Go draws the nonce from
crypto/rand; the model passes the random source explicitly as a byte
stream.  With a 32-byte key, aes.NewCipher and cipher.NewGCM cannot
fail and rand.Read failure is entropy exhaustion, outside the model,
so the embedded function is total. -/
def encryptMessage (key : Bytes) (plaintext : Bytes) (entropy : Nat → Nat) :
    Bytes × Bytes :=
  let nonce := (List.range gcmNonceSize).map entropy
  (gcmSeal key nonce plaintext, nonce)

/-- Embeds decryptMessage (network.go 67-77): pure AEAD open with the
shared key; returns the error from aesGCM.Open on failure. -/
def decryptMessage (key : Bytes) (ciphertext : Bytes) (nonce : Bytes) :
    Except String Bytes :=
  gcmOpen key nonce ciphertext

/-- Modelled from the spec: deriveSharedKey (network.go 40-46) calls
curve25519.ScalarMult, external library code; section 4.1 only
requires a deterministic 32-byte function of the two keys.  Bytewise
xor is deterministic and length preserving. -/
def deriveSharedKey (privateKey remotePubKey : Bytes) : Bytes :=
  privateKey.zipWith (fun a b => a ^^^ b) remotePubKey

/-! ### Crypto lemmas -/

lemma maskBytes_involution (key nonce : Bytes) :
    ∀ i bs, maskBytes key nonce i (maskBytes key nonce i bs) = bs := by
  intro i bs
  induction bs generalizing i with
  | nil => rfl
  | cons b bs ih =>
    simp only [maskBytes]
    rw [Nat.xor_assoc, Nat.xor_self, Nat.xor_zero, ih (i + 1)]

lemma foldr_pair_inj :
    ∀ l₁ l₂ : Bytes, l₁.length = l₂.length →
      l₁.foldr Nat.pair 0 = l₂.foldr Nat.pair 0 → l₁ = l₂ := by
  intro l₁
  induction l₁ with
  | nil =>
    intro l₂ hlen _
    cases l₂ with
    | nil => rfl
    | cons b bs => simp at hlen
  | cons a as ih =>
    intro l₂ hlen hfold
    cases l₂ with
    | nil => simp at hlen
    | cons b bs =>
      simp only [List.foldr] at hfold
      obtain ⟨h1, h2⟩ := Nat.pair_eq_pair.mp hfold
      simp only [List.length_cons, Nat.succ.injEq] at hlen
      rw [h1, ih bs hlen h2]

lemma encodeBytes_inj {l₁ l₂ : Bytes} (h : encodeBytes l₁ = encodeBytes l₂) :
    l₁ = l₂ := by
  obtain ⟨h1, h2⟩ := Nat.pair_eq_pair.mp h
  exact foldr_pair_inj l₁ l₂ h1 h2

lemma gcmTag_inj {k₁ n₁ b₁ k₂ n₂ b₂ : Bytes}
    (h : gcmTag k₁ n₁ b₁ = gcmTag k₂ n₂ b₂) : k₁ = k₂ ∧ n₁ = n₂ ∧ b₁ = b₂ := by
  obtain ⟨h1, h2⟩ := Nat.pair_eq_pair.mp h
  obtain ⟨h3, h4⟩ := Nat.pair_eq_pair.mp h2
  exact ⟨encodeBytes_inj h1, encodeBytes_inj h3, encodeBytes_inj h4⟩

lemma gcmOpen_gcmSeal (key nonce pt : Bytes) :
    gcmOpen key nonce (gcmSeal key nonce pt) = .ok pt := by
  unfold gcmOpen gcmSeal
  rw [List.getLast?_concat, List.dropLast_concat]
  simp [maskBytes_involution]

lemma gcmOpen_sound {key nonce ct pt : Bytes}
    (h : gcmOpen key nonce ct = .ok pt) : ct = gcmSeal key nonce pt := by
  unfold gcmOpen at h
  cases hlast : ct.getLast? with
  | none => simp [hlast] at h
  | some tag =>
    simp only [hlast] at h
    by_cases htag : gcmTag key nonce ct.dropLast = tag
    · rw [if_pos htag] at h
      have hpt : pt = maskBytes key nonce 0 ct.dropLast := by
        injection h with h'; exact h'.symm
      have hne : ct ≠ [] := by
        intro hc; rw [hc] at hlast; exact absurd hlast (by simp)
      have hgl : ct.getLast hne = tag := by
        have hx := List.getLast?_eq_getLast ct hne
        rw [hlast] at hx
        exact (Option.some.injEq _ _ ▸ hx).symm
      have hsplit : ct = ct.dropLast ++ [tag] := by
        rw [← hgl]
        exact (List.dropLast_append_getLast hne).symm
      rw [hpt, gcmSeal, maskBytes_involution, htag]
      exact hsplit
    · rw [if_neg htag] at h; exact absurd h (by simp)

/-! ### Data model (src/types.go)

Field names follow the Go structs.  The Go wire discriminator field is
called Type, a reserved word in Lean, so it appears here as Typ.  Go
time.Time values are modelled as natural-number ticks, with 0 playing
the role of the zero time (time.Time.IsZero); the current time is
passed explicitly to the functions that call time.Now().  Go's float64
Speed is modelled as an exact rational.  Go maps are modelled as
association lists with unique keys, looked up front to back. -/

/-- Embeds FileTransferRequest (types.go). -/
structure FileTransferRequest where
  Typ : String
  FileID : String
  FileName : String
  FileSize : Int
  From : String
  To : String
  Timestamp : Nat
  deriving Repr, DecidableEq

/-- Embeds FileTransferResponse (types.go). -/
structure FileTransferResponse where
  Typ : String
  FileID : String
  Accepted : Bool
  Message : String
  Timestamp : Nat
  deriving Repr, DecidableEq

/-- Embeds FileChunk (types.go).  ChunkNum and TotalChunks are Go ints
that the source only ever sets to non-negative counts, so they are
modelled as naturals. -/
structure FileChunk where
  Typ : String
  FileID : String
  ChunkNum : Nat
  TotalChunks : Nat
  Data : Bytes
  Timestamp : Nat
  Encrypted : Bool
  Nonce : Bytes
  Ciphertext : Bytes
  deriving Repr, DecidableEq

/-- Tagged union for the dynamically typed Data field of Message.  The
Go source carries Data as interface{} and re-decodes it by the Type
discriminator; the spec (section 9) prescribes exactly this sum type. -/
inductive DataPayload where
  | none
  | handshakeData (webPort : Option Int) (tcpPort : Option Int)
  | fileRequest (r : FileTransferRequest)
  | fileResponse (r : FileTransferResponse)
  | fileChunk (c : FileChunk)
  deriving Repr, DecidableEq

/-- Embeds Message, the wire envelope (types.go). -/
structure Message where
  Typ : String
  From : String
  To : String
  Content : String
  Timestamp : Nat
  Data : DataPayload
  Encrypted : Bool
  Nonce : Bytes
  Ciphertext : Bytes
  SenderPubKey : Bytes
  MessageType : String
  MessageID : String
  ReplyToID : String
  ReplyToContent : String
  ReplyToSender : String
  FileName : String
  FileSize : Int
  FileType : String
  FileURL : String
  FileData : String
  FileID : String
  deriving Repr, DecidableEq

/-- Embeds Peer (types.go).  Conn is a connection handle identity;
none models a nil net.Conn. -/
structure Peer where
  ID : String
  Name : String
  Address : String
  Conn : Option Nat
  IsActive : Bool
  LastSeen : Nat
  SharedKey : Bytes
  PublicKey : Bytes
  ReconnectAttempts : Nat
  IP : String
  Port : Int
  WebPort : Int
  deriving Repr, DecidableEq

/-- Embeds DiscoveryMessage (types.go). -/
structure DiscoveryMessage where
  Typ : String
  ID : String
  Name : String
  IP : String
  Port : Int
  deriving Repr, DecidableEq

/-- Embeds FileTransferStatus (types.go). -/
structure FileTransferStatus where
  FileID : String
  FileName : String
  FilePath : String
  FileSize : Int
  Progress : Int
  Status : String
  Direction : String
  PeerName : String
  PeerID : String
  StartTime : Nat
  EndTime : Nat
  Speed : Rat
  ETA : Int
  LastUpdateTime : Nat
  deriving Repr, DecidableEq

/-- Embeds ChatMessage (types.go), restricted to the fields the
dispatch pipeline fills in; delivering one of these is the observable
effect of addChatMessageWithType (UI callback plus persistence). -/
structure ChatMessage where
  Sender : String
  Recipient : String
  Content : String
  IsOwn : Bool
  IsPrivate : Bool
  MessageType : String
  FileURL : String
  FileID : String
  deriving Repr, DecidableEq

/-! ### Go map model -/

/-- Lookup in an association-list map (Go m[k] with ok flag). -/
def mapLookup {α : Type} : List (String × α) → String → Option α
  | [], _ => Option.none
  | (k, v) :: rest, key => if k = key then some v else mapLookup rest key

/-- Insertion or replacement (Go m[k] = v). -/
def mapInsert {α : Type} (m : List (String × α)) (key : String) (v : α) :
    List (String × α) :=
  (key, v) :: m.filter (fun p => p.1 ≠ key)

/-- Deletion (Go delete(m, k)). -/
def mapErase {α : Type} (m : List (String × α)) (key : String) :
    List (String × α) :=
  m.filter (fun p => p.1 ≠ key)

lemma mapLookup_insert_self {α : Type} (m : List (String × α)) (k : String) (v : α) :
    mapLookup (mapInsert m k v) k = some v := by
  simp [mapInsert, mapLookup]

lemma mapLookup_filter_ne {α : Type} (m : List (String × α)) (k k' : String)
    (h : k' ≠ k) : mapLookup (m.filter (fun p => p.1 ≠ k)) k' = mapLookup m k' := by
  induction m with
  | nil => rfl
  | cons p rest ih =>
    cases p with
    | mk pk pv =>
      simp only [ne_eq, decide_not] at ih ⊢
      by_cases hp : pk = k
      · subst hp
        simp [List.filter_cons, mapLookup, Ne.symm h, ih]
      · simp [List.filter_cons, hp, mapLookup, ih]

lemma mapLookup_insert_ne {α : Type} (m : List (String × α)) (k k' : String) (v : α)
    (h : k' ≠ k) : mapLookup (mapInsert m k v) k' = mapLookup m k' := by
  simp only [mapInsert, mapLookup, if_neg (fun hc : k = k' => h hc.symm)]
  exact mapLookup_filter_ne m k k' h

lemma mapLookup_erase_self {α : Type} (m : List (String × α)) (k : String) :
    mapLookup (mapErase m k) k = Option.none := by
  induction m with
  | nil => rfl
  | cons p rest ih =>
    cases p with
    | mk pk pv =>
      simp only [mapErase, ne_eq, decide_not] at ih ⊢
      by_cases hp : pk = k
      · subst hp
        simpa [List.filter_cons] using ih
      · simpa [List.filter_cons, hp, mapLookup] using ih

lemma mapLookup_erase_ne {α : Type} (m : List (String × α)) (k k' : String)
    (h : k' ≠ k) : mapLookup (mapErase m k) k' = mapLookup m k' :=
  mapLookup_filter_ne m k k' h

/-- Registry of peers (P2PNode.Peers, guarded by PeersMutex in Go). -/
abbrev PeerMap := List (String × Peer)

/-- File transfer table (P2PNode.FileTransfers). -/
abbrev TransferMap := List (String × FileTransferStatus)

/-- Embeds the map-range scans "for id, peer := range node.Peers if
peer.Name == name" (filetransfer.go 39-46, 146-153, 232-239).  Go map
iteration order is unspecified; the model scans the association list
front to back, one admissible order. -/
def findPeerIDByName : PeerMap → String → Option String
  | [], _ => Option.none
  | (id, p) :: rest, name => if p.Name = name then some id else findPeerIDByName rest name

/-- Same scan returning the peer itself (sendFile's target lookup). -/
def findPeerByName : PeerMap → String → Option Peer
  | [], _ => Option.none
  | (_, p) :: rest, name => if p.Name = name then some p else findPeerByName rest name

/-! ### Connection handling (src/network.go) -/

/-- Decoded bytes back to a Go string (inverse of goBytes on the
codepoint range; chat content is ASCII-safe in the model). -/
def bytesStr (bs : Bytes) : String := ⟨bs.map Char.ofNat⟩

/-- Observable outcome of handleIncomingConnection: the registry after
the call, the connections Close()d (in order), the connection that got
the handshake_response write, the emitted online notification, and
whether a read loop was spawned for the new connection. -/
structure IncomingResult where
  Peers : PeerMap
  ClosedConns : List Nat
  HandshakeResponseTo : Option Nat
  EmittedOnline : Option String
  Accepted : Bool
  deriving Repr, DecidableEq

/-- The tcpPort carried in a handshake message's Data, after the
positivity check of network.go 237-239 (0 when absent or invalid). -/
def handshakeTCPPort (msg : Message) : Int :=
  match msg.Data with
  | DataPayload.handshakeData _ (some tp) => if tp > 0 then tp else 0
  | _ => 0

/-- The webPort carried in a handshake message's Data (0 if absent). -/
def handshakeWebPort (msg : Message) : Int :=
  match msg.Data with
  | DataPayload.handshakeData (some wp) _ => wp
  | _ => 0

/-- The Peer record handleIncomingConnection builds for an accepted
inbound handshake (network.go 212-247). -/
def incomingPeer (nodePrivateKey : Bytes) (conn : Nat)
    (remoteIP remoteAddr : String) (msg : Message) (now : Nat) : Peer :=
  { ID := msg.From, Name := msg.Content,
    Address :=
      if handshakeTCPPort msg > 0 then
        remoteIP ++ ":" ++ toString (handshakeTCPPort msg)
      else remoteAddr,
    Conn := some conn, IsActive := true, LastSeen := now,
    SharedKey := deriveSharedKey nodePrivateKey msg.SenderPubKey,
    PublicKey := msg.SenderPubKey, ReconnectAttempts := 0,
    IP := remoteIP, Port := handshakeTCPPort msg,
    WebPort := handshakeWebPort msg }

/-- Embeds handleIncomingConnection (network.go 189-286).  The first
decoded message arrives as an Option (none models a Decode error), the
accepted socket as the handle conn, and conn.RemoteAddr() as remoteIP
and remoteAddr. -/
def handleIncomingConnection (nodeID : String)
    (nodePrivateKey : Bytes) (peers : PeerMap) (conn : Nat)
    (remoteIP remoteAddr : String) (handshakeMsg : Option Message)
    (now : Nat) : IncomingResult :=
  match handshakeMsg with
  | Option.none => ⟨peers, [conn], Option.none, Option.none, false⟩
  | some msg =>
    if msg.Typ ≠ "handshake" then ⟨peers, [conn], Option.none, Option.none, false⟩
    else if msg.SenderPubKey.length ≠ 32 then
      ⟨peers, [conn], Option.none, Option.none, false⟩
    else
      let peer := incomingPeer nodePrivateKey conn remoteIP remoteAddr msg now
      match mapLookup peers msg.From with
      | some oldPeer =>
        if oldPeer.IsActive ∧ goStringLt nodeID msg.From then
          ⟨peers, [conn], Option.none, Option.none, false⟩
        else
          { Peers := mapInsert peers msg.From peer,
            ClosedConns := match oldPeer.Conn with | some oc => [oc] | Option.none => [],
            HandshakeResponseTo := some conn,
            EmittedOnline := Option.none,
            Accepted := true }
      | Option.none =>
        { Peers := mapInsert peers msg.From peer,
          ClosedConns := [],
          HandshakeResponseTo := some conn,
          EmittedOnline := some msg.Content,
          Accepted := true }

/-- Embeds sendMessageToPeer (network.go 529-548): the message value
actually written onto the peer's socket.  Go converts SharedKey with
a [32]byte cast; the registry only ever stores empty or 32-byte keys,
and the model passes the slice through. -/
def sendMessageToPeer (peer : Peer) (msg : Message) (entropy : Nat → Nat) :
    Message :=
  if peer.SharedKey.length > 0 ∧ msg.Typ = "chat" then
    let sealed := encryptMessage peer.SharedKey (goBytes msg.Content) entropy
    { msg with Encrypted := true, Nonce := sealed.2, Ciphertext := sealed.1,
               Content := "" }
  else msg

/-- Block list state: P2PNode.ACLs, an address-keyed map of per-node
ACL maps (false marks a blocked address). -/
abbrev ACLMap := List (String × List (String × Bool))

/-- Embeds isBlocked (ACL lookup: an entry with value false means the
target address is blocked; a missing entry means allowed). -/
def isBlocked (acls : ACLMap) (nodeAddress targetAddress : String) : Bool :=
  match mapLookup acls nodeAddress with
  | some acl =>
    match mapLookup acl targetAddress with
    | some v => !v
    | Option.none => false
  | Option.none => false

/-- Embeds getPeerName (network.go 518-526). -/
def getPeerName (peers : PeerMap) (peerID : String) : String :=
  match mapLookup peers peerID with
  | some p => p.Name
  | Option.none => peerID

/-- Embeds processReceivedFile (network.go 629-667) at the level the
dispatch claims need: the URL handed to the delivery call.  The base64
decode and disk write are I/O; the model keeps the served URL shape
for image messages and the empty string otherwise. -/
def processReceivedFileURL (msg : Message) : String :=
  if msg.MessageType = "image" ∧ msg.FileData ≠ "" then
    "/images/" ++ msg.FileName
  else ""

/-- Embeds the chat branch of the dispatch pipeline handleMessages
(network.go 386-433).  The returned value is the delivery performed by
addChatMessageWithType — the UI callback plus persistence; Option.none
means the message was dropped with no delivery and no persistence. -/
def handleChatMessage (nodeID nodeName nodeAddress : String)
    (peers : PeerMap) (acls : ACLMap) (msg : Message) : Option ChatMessage :=
  let content :=
    if msg.Encrypted ∧ msg.Nonce ≠ [] ∧ msg.Ciphertext ≠ [] then
      match mapLookup peers msg.From with
      | some senderPeer =>
        if senderPeer.SharedKey.length > 0 then
          match decryptMessage senderPeer.SharedKey msg.Ciphertext msg.Nonce with
          | .ok plaintext => bytesStr plaintext
          | .error _ => "[解密失败]"
        else "[无密钥]"
      | Option.none => "[无密钥]"
    else msg.Content
  match mapLookup peers msg.From with
  | Option.none => Option.none
  | some senderPeer =>
    let senderName := getPeerName peers msg.From
    if msg.To = "" ∨ msg.To = "all" then
      if isBlocked acls nodeAddress senderPeer.Address then Option.none
      else some { Sender := senderName, Recipient := "all", Content := content,
                  IsOwn := false, IsPrivate := false,
                  MessageType := msg.MessageType,
                  FileURL := processReceivedFileURL msg, FileID := msg.FileID }
    else if msg.To = nodeID then
      if isBlocked acls nodeAddress senderPeer.Address then Option.none
      else some { Sender := senderName, Recipient := nodeName, Content := content,
                  IsOwn := false, IsPrivate := true,
                  MessageType := msg.MessageType,
                  FileURL := processReceivedFileURL msg, FileID := msg.FileID }
    else Option.none

/-! ### Discovery (src/discovery.go) -/

/-- Embeds the guards at the head of connectToPeer (network.go 80-95):
whether a TCP dial is attempted at all.  The dial is skipped for a
non-positive port, for an already active peer with that ID, and for
the node's own ID. -/
def connectToPeerDials (nodeID : String) (peers : PeerMap) (port : Int)
    (id : String) : Bool :=
  if port ≤ 0 then false
  else if (match mapLookup peers id with
           | some ep => ep.IsActive
           | Option.none => false) then false
  else if id = nodeID then false
  else true

/-- Observable outcome of handleDiscoveryMessage: the registry after
any stale-entry cleanup, whether a unicast discovery response was sent
back, and whether an outbound TCP dial was attempted. -/
structure DiscoveryResult where
  Peers : PeerMap
  SentResponse : Bool
  DialAttempted : Bool
  deriving Repr, DecidableEq

/-- Embeds handleDiscoveryMessage (discovery.go 110-146).  The spawned
connectToPeer goroutine is modelled as running against the registry as
left by the stale-entry cleanup. -/
def handleDiscoveryMessage (nodeID : String) (peers : PeerMap)
    (msg : DiscoveryMessage) : DiscoveryResult :=
  let isActivePeer :=
    match mapLookup peers msg.ID with
    | some p => p.IsActive
    | Option.none => false
  if isActivePeer then ⟨peers, false, false⟩
  else if msg.Typ = "announce" then
    let peers1 :=
      if (mapLookup peers msg.ID).isSome then mapErase peers msg.ID else peers
    ⟨peers1, true, connectToPeerDials nodeID peers1 msg.Port msg.ID⟩
  else if msg.Typ = "response" then
    let peers1 :=
      if (mapLookup peers msg.ID).isSome then mapErase peers msg.ID else peers
    ⟨peers1, false, connectToPeerDials nodeID peers1 msg.Port msg.ID⟩
  else ⟨peers, false, false⟩

/-! ### File transfer engine (src/filetransfer.go) -/

/-- Fixed chunk size: 64 KB (sendFile, filetransfer.go 218). -/
def chunkSize : Nat := 64 * 1024

/-- Total chunk count for a file of n bytes, as computed by sendFile:
(size + chunkSize - 1) / chunkSize (filetransfer.go 255). -/
def totalChunksOf (n : Nat) : Nat := (n + chunkSize - 1) / chunkSize

/-- Successive 64 KB blocks of the file content, the sequence of
buffers produced by the file.Read loop of sendFile (a regular-file
Read fills the whole 64 KB buffer except at the end of the file). -/
def chunksOf (content : Bytes) : List Bytes :=
  if h : content = [] then []
  else content.take chunkSize :: chunksOf (content.drop chunkSize)
termination_by content.length
decreasing_by
  have : 0 < content.length := List.length_pos.mpr h
  simp only [List.length_drop, chunkSize]
  omega

/-- Wraps each block in a FileChunk with its 1-based sequence number,
mirroring the chunkNum++ counter of sendFile's loop. -/
def numberChunks (fileID : String) (total : Nat) (now : Nat) :
    Nat → List Bytes → List FileChunk
  | _, [] => []
  | i, d :: ds =>
    { Typ := "file_chunk", FileID := fileID, ChunkNum := i + 1,
      TotalChunks := total, Data := d, Timestamp := now,
      Encrypted := false, Nonce := [], Ciphertext := [] }
      :: numberChunks fileID total now (i + 1) ds

/-- The chunk stream sendFile produces for a file, before the optional
per-chunk encryption (filetransfer.go 260-283). -/
def sendFileChunks (fileID : String) (content : Bytes) (now : Nat) :
    List FileChunk :=
  numberChunks fileID (totalChunksOf content.length) now 0 (chunksOf content)

/-- Per-chunk encryption in sendFile (filetransfer.go 285-303): seal
the data when a 32-byte shared key is present, otherwise send the
chunk in plaintext. -/
def encryptChunk (sharedKey : Bytes) (c : FileChunk) (entropy : Nat → Nat) :
    FileChunk :=
  if sharedKey.length = 32 then
    let sealed := encryptMessage sharedKey c.Data entropy
    { c with Encrypted := true, Nonce := sealed.2, Ciphertext := sealed.1,
             Data := [] }
  else { c with Encrypted := false }

/-- Truncation of a rational toward zero, Go's int64(float64) cast for
the non-negative ETA values that arise here. -/
def intTrunc (q : Rat) : Int := Int.tdiv q.num q.den

/-- The in-place mutation updateTransferProgress performs on a single
transfer entry (filetransfer.go 433-457).  Time is in whole ticks
(seconds); Go's float64 speed arithmetic is carried out exactly over
the rationals. -/
def progressUpdate (t : FileTransferStatus) (bytesAdded : Int) (now : Nat) :
    FileTransferStatus :=
  let progress := t.Progress + bytesAdded
  let last := if t.LastUpdateTime = 0 then t.StartTime else t.LastUpdateTime
  let elapsed : Nat := now - last
  let speed := if 0 < elapsed then (bytesAdded : Rat) / (elapsed : Rat) else t.Speed
  let eta :=
    if 0 < elapsed then
      if 0 < (bytesAdded : Rat) / (elapsed : Rat) then
        intTrunc (((t.FileSize - progress : Int) : Rat) /
          ((bytesAdded : Rat) / (elapsed : Rat)))
      else -1
    else t.ETA
  { t with Progress := progress, Speed := speed, ETA := eta,
           LastUpdateTime := now, Status := "transferring" }

/-- Embeds updateTransferProgress (filetransfer.go 424-458). -/
def updateTransferProgress (transfers : TransferMap) (fileID : String)
    (bytesAdded : Int) (now : Nat) : TransferMap :=
  match mapLookup transfers fileID with
  | Option.none => transfers
  | some t => mapInsert transfers fileID (progressUpdate t bytesAdded now)

/-- Observable outcome of handleFileChunk: the transfer table after
the call and the bytes appended to the output file (none when the
chunk was discarded). -/
structure ChunkResult where
  Transfers : TransferMap
  Written : Option (String × Bytes)
  deriving Repr, DecidableEq

/-- Embeds handleFileChunk (filetransfer.go 341-421).  Directory
creation and the append-mode open are I/O modelled as succeeding; a
failed chunk decryption returns before any write or progress update,
exactly as the source does. -/
def handleFileChunk (transfers : TransferMap) (peers : PeerMap)
    (chunk : FileChunk) (now : Nat) : ChunkResult :=
  match mapLookup transfers chunk.FileID with
  | Option.none => ⟨transfers, Option.none⟩
  | some transfer =>
    let filePath := "downloads/" ++ transfer.FileName
    let chunkData? : Option Bytes :=
      if chunk.Encrypted ∧ chunk.Nonce ≠ [] ∧ chunk.Ciphertext ≠ [] then
        match mapLookup peers transfer.PeerID with
        | some senderPeer =>
          if senderPeer.SharedKey.length > 0 then
            match decryptMessage senderPeer.SharedKey chunk.Ciphertext chunk.Nonce with
            | .ok plaintext => some plaintext
            | .error _ => Option.none
          else Option.none
        | Option.none => Option.none
      else some chunk.Data
    match chunkData? with
    | Option.none => ⟨transfers, Option.none⟩
    | some chunkData =>
      let transfers1 :=
        updateTransferProgress transfers chunk.FileID (chunkData.length : Int) now
      let transfers2 :=
        match mapLookup transfers1 chunk.FileID with
        | some t1 =>
          if t1.FileSize ≤ t1.Progress then
            mapInsert transfers1 chunk.FileID
              { t1 with Status := "completed", EndTime := now }
          else transfers1
        | Option.none => transfers1
      ⟨transfers2, some (filePath, chunkData)⟩

/-- Observable outcome of handleFileTransferResponse: the transfer
table and the fileID whose sendFile goroutine was spawned, if any. -/
structure ResponseResult where
  Transfers : TransferMap
  StartedSendOf : Option String
  deriving Repr, DecidableEq

/-- Embeds handleFileTransferResponse (filetransfer.go 189-214). -/
def handleFileTransferResponse (transfers : TransferMap)
    (response : FileTransferResponse) : ResponseResult :=
  match mapLookup transfers response.FileID with
  | Option.none => ⟨transfers, Option.none⟩
  | some transfer =>
    if response.Accepted then
      ⟨mapInsert transfers response.FileID { transfer with Status := "transferring" },
       some response.FileID⟩
    else
      ⟨mapErase transfers response.FileID, Option.none⟩

/-- Observable outcome of respondToFileTransfer: the transfer table
and the file_response written (receiving peer ID and payload). -/
structure RespondResult where
  Transfers : TransferMap
  SentResponse : Option (String × FileTransferResponse)
  deriving Repr, DecidableEq

/-- Embeds respondToFileTransfer (filetransfer.go 125-186). -/
def respondToFileTransfer (transfers : TransferMap) (peers : PeerMap)
    (fileID : String) (accepted : Bool) (now : Nat) : RespondResult :=
  match mapLookup transfers fileID with
  | Option.none => ⟨transfers, Option.none⟩
  | some transfer =>
    if transfer.Direction ≠ "receive" then ⟨transfers, Option.none⟩
    else
      let responseMsg : FileTransferResponse :=
        { Typ := "file_response", FileID := fileID, Accepted := accepted,
          Message := if accepted then "文件传输已接受" else "文件传输被拒绝",
          Timestamp := now }
      match findPeerIDByName peers transfer.PeerName with
      | Option.none => ⟨transfers, Option.none⟩
      | some fromPeerID =>
        let transfers1 :=
          if accepted then
            mapInsert transfers fileID { transfer with Status := "transferring" }
          else mapErase transfers fileID
        match mapLookup peers fromPeerID with
        | some _ => ⟨transfers1, some (fromPeerID, responseMsg)⟩
        | Option.none => ⟨transfers1, Option.none⟩

/-- Observable outcome of a sendFile run: the transfer table and the
file_chunk payloads written to the target peer, in order. -/
structure SendFileResult where
  Transfers : TransferMap
  SentChunks : List FileChunk
  deriving Repr, DecidableEq

/-- Embeds sendFile (filetransfer.go 217-338) on its non-faulting
path (file reads and socket writes succeed; a write error would abort
with status failed).  The file content stands in for the opened
file. -/
def sendFile (transfers : TransferMap) (peers : PeerMap) (fileID : String)
    (content : Bytes) (entropy : Nat → Nat) (now : Nat) : SendFileResult :=
  match mapLookup transfers fileID with
  | Option.none => ⟨transfers, []⟩
  | some transfer =>
    match findPeerByName peers transfer.PeerName with
    | Option.none => ⟨transfers, []⟩
    | some targetPeer =>
      let plainChunks := sendFileChunks fileID content now
      let wireChunks :=
        plainChunks.map (fun c => encryptChunk targetPeer.SharedKey c entropy)
      let transfers1 :=
        plainChunks.foldl
          (fun ts c => updateTransferProgress ts fileID (c.Data.length : Int) now)
          transfers
      let transfers2 :=
        match mapLookup transfers1 fileID with
        | some t1 =>
          mapInsert transfers1 fileID
            { t1 with Status := "completed", EndTime := now }
        | Option.none => transfers1
      ⟨transfers2, wireChunks⟩

/-- Receiver-side processing of a chunk sequence: each inbound
file_chunk message goes through handleFileChunk, at its own arrival
time. -/
def receiveChunks (peers : PeerMap) (transfers : TransferMap) :
    List (FileChunk × Nat) → TransferMap
  | [] => transfers
  | (c, t) :: rest =>
    receiveChunks peers (handleFileChunk transfers peers c t).Transfers rest

/-! ### Sample zero values (Go zero-valued structs, used to build the
concrete inputs of witnesses and counterexamples) -/

/-- Zero value of the Go Message struct. -/
def zeroMessage : Message :=
  { Typ := "", From := "", To := "", Content := "", Timestamp := 0,
    Data := DataPayload.none, Encrypted := false, Nonce := [],
    Ciphertext := [], SenderPubKey := [], MessageType := "",
    MessageID := "", ReplyToID := "", ReplyToContent := "",
    ReplyToSender := "", FileName := "", FileSize := 0, FileType := "",
    FileURL := "", FileData := "", FileID := "" }

/-- Zero value of the Go Peer struct. -/
def zeroPeer : Peer :=
  { ID := "", Name := "", Address := "", Conn := Option.none,
    IsActive := false, LastSeen := 0, SharedKey := [], PublicKey := [],
    ReconnectAttempts := 0, IP := "", Port := 0, WebPort := 0 }

/-- Zero value of the Go FileTransferStatus struct. -/
def zeroTransfer : FileTransferStatus :=
  { FileID := "", FileName := "", FilePath := "", FileSize := 0,
    Progress := 0, Status := "", Direction := "", PeerName := "",
    PeerID := "", StartTime := 0, EndTime := 0, Speed := 0, ETA := 0,
    LastUpdateTime := 0 }

/-! ### Claim C1 -/

lemma handleIncoming_reject_eq (nodeID : String) (nodePrivateKey : Bytes)
    (peers : PeerMap) (conn : Nat) (remoteIP remoteAddr : String)
    (msg : Message) (now : Nat) (oldPeer : Peer)
    (hmsg : msg.Typ = "handshake") (hkey : msg.SenderPubKey.length = 32)
    (hold : mapLookup peers msg.From = some oldPeer)
    (hact : oldPeer.IsActive = true)
    (hlt : goStringLt nodeID msg.From = true) :
    handleIncomingConnection nodeID nodePrivateKey peers conn remoteIP
      remoteAddr (some msg) now =
      ⟨peers, [conn], Option.none, Option.none, false⟩ := by
  simp only [handleIncomingConnection]
  rw [if_neg (fun hne => hne hmsg), if_neg (fun hne => hne hkey), hold]
  exact if_pos ⟨hact, hlt⟩

lemma handleIncoming_replace_eq (nodeID : String) (nodePrivateKey : Bytes)
    (peers : PeerMap) (conn : Nat) (remoteIP remoteAddr : String)
    (msg : Message) (now : Nat) (oldPeer : Peer)
    (hmsg : msg.Typ = "handshake") (hkey : msg.SenderPubKey.length = 32)
    (hold : mapLookup peers msg.From = some oldPeer)
    (hcase : oldPeer.IsActive = false ∨ goStringLt nodeID msg.From = false) :
    handleIncomingConnection nodeID nodePrivateKey peers conn remoteIP
      remoteAddr (some msg) now =
      ⟨mapInsert peers msg.From
        (incomingPeer nodePrivateKey conn remoteIP remoteAddr msg now),
       (match oldPeer.Conn with | some oc => [oc] | Option.none => []),
       some conn, Option.none, true⟩ := by
  have hneg : ¬(oldPeer.IsActive = true ∧ goStringLt nodeID msg.From = true) := by
    rintro ⟨h1, h2⟩
    cases hcase with
    | inl h => rw [h1] at h; exact absurd h (by simp)
    | inr h => rw [h2] at h; exact absurd h (by simp)
  simp only [handleIncomingConnection]
  rw [if_neg (fun hne => hne hmsg), if_neg (fun hne => hne hkey), hold]
  exact if_neg hneg

/-- C1: for an inbound connection whose first message is a handshake
for a peer ID that already has an active registry entry, the receiving
side decides by lexicographic ID comparison — if the local node's ID
is smaller the inbound connection is closed and the registry is left
unchanged; otherwise the old entry's connection is closed and the
entry is replaced by the new inbound connection
(handleIncomingConnection, network.go 249-266). -/
theorem C1_duplicate_inbound_tiebreak
    (nodeID : String) (nodePrivateKey : Bytes) (peers : PeerMap)
    (conn : Nat) (remoteIP remoteAddr : String) (msg : Message) (now : Nat)
    (oldPeer : Peer) (oc : Nat)
    (hmsg : msg.Typ = "handshake") (hkey : msg.SenderPubKey.length = 32)
    (hold : mapLookup peers msg.From = some oldPeer)
    (hact : oldPeer.IsActive = true) (hconn : oldPeer.Conn = some oc) :
    (goStringLt nodeID msg.From = true →
      (handleIncomingConnection nodeID nodePrivateKey peers conn remoteIP
        remoteAddr (some msg) now).Peers = peers ∧
      (handleIncomingConnection nodeID nodePrivateKey peers conn remoteIP
        remoteAddr (some msg) now).ClosedConns = [conn] ∧
      (handleIncomingConnection nodeID nodePrivateKey peers conn remoteIP
        remoteAddr (some msg) now).Accepted = false) ∧
    (goStringLt nodeID msg.From = false →
      (handleIncomingConnection nodeID nodePrivateKey peers conn remoteIP
        remoteAddr (some msg) now).ClosedConns = [oc] ∧
      (∃ p, mapLookup (handleIncomingConnection nodeID nodePrivateKey peers
              conn remoteIP remoteAddr (some msg) now).Peers msg.From = some p ∧
            p.Conn = some conn ∧ p.IsActive = true ∧ p.ID = msg.From) ∧
      (∀ k, k ≠ msg.From →
        mapLookup (handleIncomingConnection nodeID nodePrivateKey peers conn
          remoteIP remoteAddr (some msg) now).Peers k = mapLookup peers k) ∧
      (handleIncomingConnection nodeID nodePrivateKey peers conn remoteIP
        remoteAddr (some msg) now).Accepted = true) := by
  constructor
  · intro hlt
    rw [handleIncoming_reject_eq nodeID nodePrivateKey peers conn remoteIP
      remoteAddr msg now oldPeer hmsg hkey hold hact hlt]
    exact ⟨rfl, rfl, rfl⟩
  · intro hlt
    rw [handleIncoming_replace_eq nodeID nodePrivateKey peers conn remoteIP
      remoteAddr msg now oldPeer hmsg hkey hold (Or.inr hlt), hconn]
    refine ⟨rfl, ⟨_, mapLookup_insert_self _ _ _, rfl, rfl, rfl⟩, ?_, rfl⟩
    intro k hk
    exact mapLookup_insert_ne peers msg.From k _ hk

/-- Sample active registry entry holding connection handle 7, used by
witnesses. -/
def demoActivePeer (id : String) : Peer :=
  { zeroPeer with
      ID := id, IsActive := true, Conn := some 7 }

/-- Sample inbound handshake message from a given sender id. -/
def demoHandshake (id : String) : Message :=
  { zeroMessage with
      Typ := "handshake", From := id,
      SenderPubKey := List.replicate 32 1 }

/-- C1 witness: both branches of the tie break exercised on concrete
registries — node id b rejects a duplicate inbound from c (b sorts
before c and keeps its registry), while node id b accepts a duplicate
inbound from a (b sorts after a) and closes the old connection 7. -/
theorem C1_duplicate_inbound_tiebreak_witness :
    ((handleIncomingConnection "b" (List.replicate 32 0)
        [("c", demoActivePeer "c")] 9 "10.0.0.5" "10.0.0.5:4242"
        (some (demoHandshake "c")) 5).Peers = [("c", demoActivePeer "c")]) ∧
    ((handleIncomingConnection "b" (List.replicate 32 0)
        [("a", demoActivePeer "a")] 9 "10.0.0.5" "10.0.0.5:4242"
        (some (demoHandshake "a")) 5).ClosedConns = [7]) := by
  have h1 := C1_duplicate_inbound_tiebreak "b" (List.replicate 32 0)
    [("c", demoActivePeer "c")] 9 "10.0.0.5" "10.0.0.5:4242"
    (demoHandshake "c") 5 (demoActivePeer "c") 7
    (by decide) (by decide) (by decide) (by decide) (by decide)
  have h2 := C1_duplicate_inbound_tiebreak "b" (List.replicate 32 0)
    [("a", demoActivePeer "a")] 9 "10.0.0.5" "10.0.0.5:4242"
    (demoHandshake "a") 5 (demoActivePeer "a") 7
    (by decide) (by decide) (by decide) (by decide) (by decide)
  exact ⟨(h1.1 (by decide)).1, (h2.2 (by decide)).1⟩

/-! ### Claim C2 -/

lemma cleanup_lookup_none (peers : PeerMap) (id : String) :
    mapLookup (if (mapLookup peers id).isSome then mapErase peers id else peers)
      id = Option.none := by
  by_cases h : (mapLookup peers id).isSome
  · rw [if_pos h]
    exact mapLookup_erase_self peers id
  · rw [if_neg h]
    exact Option.not_isSome_iff_eq_none.mp h

/-- C2 counterexample: node b receives an announce from node a (whose
ID sorts before b, so the claim says b must not dial) with no prior
registry entry; the code nevertheless attempts an outbound dial —
handleDiscoveryMessage calls connectToPeer unconditionally, with no ID
comparison (discovery.go 121-145).  The same unconditional dial occurs
for a response message. -/
theorem C2_discovery_tiebreak_counterexample :
    (handleDiscoveryMessage "b" []
      { Typ := "announce", ID := "a", Name := "n", IP := "10.0.0.1",
        Port := 8888 }).DialAttempted = true ∧
    (handleDiscoveryMessage "b" []
      { Typ := "response", ID := "a", Name := "n", IP := "10.0.0.1",
        Port := 8888 }).DialAttempted = true ∧
    goStringLt "b" "a" = false := by
  exact ⟨by decide, by decide, by decide⟩

/-- C2 amended: for a discovery message from a sender that is not a
known active peer, the node on announce always sends a unicast
response and on response sends none; in both cases it always attempts
an outbound connection whenever the advertised port is positive and
the sender is not the node itself — with no lexicographic ID
comparison anywhere (the tie break is enforced later, at connect and
inbound-handshake time). -/
theorem C2_discovery_dials_unconditionally (nodeID : String)
    (peers : PeerMap) (msg : DiscoveryMessage)
    (hactive : (match mapLookup peers msg.ID with
                | some p => p.IsActive
                | Option.none => false) = false) :
    (msg.Typ = "announce" →
      (handleDiscoveryMessage nodeID peers msg).SentResponse = true ∧
      (handleDiscoveryMessage nodeID peers msg).DialAttempted =
        (if msg.Port ≤ 0 then false else if msg.ID = nodeID then false else true)) ∧
    (msg.Typ = "response" →
      (handleDiscoveryMessage nodeID peers msg).SentResponse = false ∧
      (handleDiscoveryMessage nodeID peers msg).DialAttempted =
        (if msg.Port ≤ 0 then false else if msg.ID = nodeID then false else true)) := by
  have hdial : connectToPeerDials nodeID
      (if (mapLookup peers msg.ID).isSome then mapErase peers msg.ID else peers)
      msg.Port msg.ID =
      (if msg.Port ≤ 0 then false else if msg.ID = nodeID then false else true) := by
    unfold connectToPeerDials
    rw [cleanup_lookup_none peers msg.ID]
    simp
  constructor
  · intro hty
    unfold handleDiscoveryMessage
    rw [hactive, if_neg (by simp), if_pos hty]
    exact ⟨rfl, hdial⟩
  · intro hty
    unfold handleDiscoveryMessage
    rw [hactive, if_neg (by simp), hty]
    by_cases hann : "response" = "announce"
    · exact absurd hann (by decide)
    · rw [if_neg hann, if_pos rfl]
      exact ⟨rfl, hdial⟩

/-- C2 witness: node b, empty registry, announce and response from
node a on port 8888 — a response is sent only for the announce, and a
dial is attempted in both cases. -/
theorem C2_discovery_dials_unconditionally_witness :
    ((handleDiscoveryMessage "b" []
      { Typ := "announce", ID := "a", Name := "n", IP := "10.0.0.1",
        Port := 8888 }).SentResponse = true) ∧
    ((handleDiscoveryMessage "b" []
      { Typ := "response", ID := "a", Name := "n", IP := "10.0.0.1",
        Port := 8888 }).SentResponse = false) := by
  have h1 := C2_discovery_dials_unconditionally "b" []
    { Typ := "announce", ID := "a", Name := "n", IP := "10.0.0.1",
      Port := 8888 } (by decide)
  have h2 := C2_discovery_dials_unconditionally "b" []
    { Typ := "response", ID := "a", Name := "n", IP := "10.0.0.1",
      Port := 8888 } (by decide)
  exact ⟨(h1.1 rfl).1, (h2.2 rfl).1⟩

/-! ### Claim C4 -/

lemma gcmSeal_dropLast (key nonce pt : Bytes) :
    (gcmSeal key nonce pt).dropLast = maskBytes key nonce 0 pt := by
  unfold gcmSeal
  exact List.dropLast_concat

lemma gcmOpen_tamper {key nonce body : Bytes} {tag : Nat}
    (h : gcmTag key nonce body ≠ tag) :
    gcmOpen key nonce (body ++ [tag]) =
      .error "cipher: message authentication failed" := by
  unfold gcmOpen
  rw [List.getLast?_concat, List.dropLast_concat]
  exact if_neg h

/-- C4: for every 32-byte key and plaintext, opening the sealed
(ciphertext, nonce) pair produced by one encryptMessage call with the
same key returns exactly the original plaintext; decrypting with a
different key, a corrupted ciphertext body, a forged tag, or a
mismatched nonce returns an error; a successful decryption only ever
returns the unique plaintext sealed into that ciphertext; and
decryptMessage is total — it returns ok or error, never panics
(encryptMessage / decryptMessage, network.go 49-77, over the symbolic
AEAD model of the external AES-GCM primitive). -/
theorem C4_aead_roundtrip_and_authentication
    (key key' nonce' body' : Bytes) (tag' : Nat) (pt : Bytes)
    (entropy : Nat → Nat) (hkey : key.length = 32) (hkey' : key'.length = 32) :
    (decryptMessage key (encryptMessage key pt entropy).1
        (encryptMessage key pt entropy).2 = .ok pt) ∧
    (key' ≠ key → decryptMessage key' (encryptMessage key pt entropy).1
        (encryptMessage key pt entropy).2 =
        .error "cipher: message authentication failed") ∧
    (nonce' ≠ (encryptMessage key pt entropy).2 →
      decryptMessage key (encryptMessage key pt entropy).1 nonce' =
        .error "cipher: message authentication failed") ∧
    (body' ≠ (encryptMessage key pt entropy).1.dropLast →
      decryptMessage key
        (body' ++ [gcmTag key (encryptMessage key pt entropy).2
          (encryptMessage key pt entropy).1.dropLast])
        (encryptMessage key pt entropy).2 =
        .error "cipher: message authentication failed") ∧
    (tag' ≠ gcmTag key (encryptMessage key pt entropy).2
        (encryptMessage key pt entropy).1.dropLast →
      decryptMessage key ((encryptMessage key pt entropy).1.dropLast ++ [tag'])
        (encryptMessage key pt entropy).2 =
        .error "cipher: message authentication failed") ∧
    (∀ k n c p, decryptMessage k c n = .ok p → c = gcmSeal k n p) ∧
    (∀ k n c, (∃ p, decryptMessage k c n = .ok p) ∨
              (∃ e, decryptMessage k c n = .error e)) := by
  refine ⟨gcmOpen_gcmSeal _ _ _, ?_, ?_, ?_, ?_, ?_, ?_⟩
  · intro hne
    apply gcmOpen_tamper
    intro htag
    exact hne (gcmTag_inj htag).1
  · intro hne
    apply gcmOpen_tamper
    intro htag
    exact hne (gcmTag_inj htag).2.1
  · intro hne
    apply gcmOpen_tamper
    intro htag
    exact hne (gcmTag_inj htag).2.2
  · intro hne
    exact gcmOpen_tamper (fun htag => hne htag.symm)
  · intro k n c p h
    exact gcmOpen_sound h
  · intro k n c
    cases h : decryptMessage k c n with
    | ok p => exact Or.inl ⟨p, rfl⟩
    | error e => exact Or.inr ⟨e, rfl⟩

/-- C4 witness: a concrete 32-byte key, plaintext [1, 2, 3] and zero
entropy — the round trip returns the plaintext and a decryption under
a different 32-byte key fails. -/
theorem C4_aead_roundtrip_witness :
    (decryptMessage (List.replicate 32 0)
      (encryptMessage (List.replicate 32 0) [1, 2, 3] (fun _ => 0)).1
      (encryptMessage (List.replicate 32 0) [1, 2, 3] (fun _ => 0)).2 =
      .ok [1, 2, 3]) ∧
    (decryptMessage (1 :: List.replicate 31 0)
      (encryptMessage (List.replicate 32 0) [1, 2, 3] (fun _ => 0)).1
      (encryptMessage (List.replicate 32 0) [1, 2, 3] (fun _ => 0)).2 =
      .error "cipher: message authentication failed") := by
  have h := C4_aead_roundtrip_and_authentication
    (List.replicate 32 0) (1 :: List.replicate 31 0) [] [] 0 [1, 2, 3]
    (fun _ => 0) (by decide) (by decide)
  exact ⟨h.1, h.2.1 (by decide)⟩

/-! ### Claim C6 -/

lemma encryptMessage_nonce_ne_nil (key pt : Bytes) (entropy : Nat → Nat) :
    (encryptMessage key pt entropy).2 ≠ [] := by
  intro h
  have : ((encryptMessage key pt entropy).2).length = 0 := by rw [h]; rfl
  rw [encryptMessage, List.length_map, List.length_range] at this
  exact absurd this (by decide)

lemma encryptMessage_ciphertext_ne_nil (key pt : Bytes) (entropy : Nat → Nat) :
    (encryptMessage key pt entropy).1 ≠ [] := by
  show gcmSeal key _ pt ≠ []
  unfold gcmSeal
  simp

/-- C6: every message actually written by sendMessageToPeer, starting
from a caller-built message (every construction site in the source
leaves Encrypted at its false zero value), satisfies: if its Encrypted
flag is true then its Content is empty and its Nonce and Ciphertext
are both non-empty and are exactly the pair produced by the single
encryptMessage seal call on the peer's shared key; and every chat
message sent to a peer with a non-empty SharedKey is encrypted this
way (sendMessageToPeer, network.go 529-548). -/
theorem C6_sent_message_encryption_invariant (peer : Peer) (msg : Message)
    (entropy : Nat → Nat) (hmsg : msg.Encrypted = false) :
    ((sendMessageToPeer peer msg entropy).Encrypted = true →
      (sendMessageToPeer peer msg entropy).Content = "" ∧
      (sendMessageToPeer peer msg entropy).Nonce ≠ [] ∧
      (sendMessageToPeer peer msg entropy).Ciphertext ≠ [] ∧
      ((sendMessageToPeer peer msg entropy).Ciphertext,
        (sendMessageToPeer peer msg entropy).Nonce) =
        encryptMessage peer.SharedKey (goBytes msg.Content) entropy) ∧
    (msg.Typ = "chat" → peer.SharedKey ≠ [] →
      (sendMessageToPeer peer msg entropy).Encrypted = true) := by
  unfold sendMessageToPeer
  by_cases hcond : peer.SharedKey.length > 0 ∧ msg.Typ = "chat"
  · rw [if_pos hcond]
    refine ⟨fun _ => ⟨rfl, ?_, ?_, rfl⟩, fun _ _ => rfl⟩
    · exact encryptMessage_nonce_ne_nil peer.SharedKey (goBytes msg.Content) entropy
    · exact encryptMessage_ciphertext_ne_nil peer.SharedKey (goBytes msg.Content) entropy
  · rw [if_neg hcond]
    constructor
    · intro henc
      rw [hmsg] at henc
      exact absurd henc (by decide)
    · intro hchat hkey
      exact absurd ⟨List.length_pos.mpr hkey, hchat⟩ hcond

/-- C6 witness: a chat message with content hi sent to a peer holding
a 32-byte shared key goes out encrypted with empty Content. -/
theorem C6_sent_message_encryption_invariant_witness :
    ((sendMessageToPeer
        { zeroPeer with SharedKey := List.replicate 32 0 }
        { zeroMessage with Typ := "chat", Content := "hi" }
        (fun _ => 0)).Encrypted = true) ∧
    ((sendMessageToPeer
        { zeroPeer with SharedKey := List.replicate 32 0 }
        { zeroMessage with Typ := "chat", Content := "hi" }
        (fun _ => 0)).Content = "") := by
  have h := C6_sent_message_encryption_invariant
    { zeroPeer with SharedKey := List.replicate 32 0 }
    { zeroMessage with Typ := "chat", Content := "hi" }
    (fun _ => 0) (by decide)
  have henc := h.2 rfl (by decide)
  exact ⟨henc, (h.1 henc).1⟩

/-! ### Claims C8, C9, C10 -/

/-- C8: an inbound chat message whose sender address is blocked is
never delivered — the dispatch returns no delivery record (so neither
the UI callback nor persistence runs), whatever the To routing is; in
particular for broadcast (To empty or all) and private (To equal to
the local node ID) messages (handleMessages chat branch, network.go
410-433). -/
theorem C8_blocked_sender_not_delivered
    (nodeID nodeName nodeAddress : String) (peers : PeerMap) (acls : ACLMap)
    (msg : Message) (senderPeer : Peer)
    (hfrom : mapLookup peers msg.From = some senderPeer)
    (hblocked : isBlocked acls nodeAddress senderPeer.Address = true) :
    handleChatMessage nodeID nodeName nodeAddress peers acls msg =
      Option.none := by
  simp only [handleChatMessage, hfrom]
  by_cases h1 : msg.To = "" ∨ msg.To = "all"
  · simp [h1, hblocked]
  · by_cases h2 : msg.To = nodeID
    · simp [h1, h2, hblocked]
    · simp [h1, h2]

/-- C8 witness: node n1 blocks address 10.0.0.9:8888; a broadcast chat
from peer x at that address is dropped, and a private chat addressed
to n1 from x is dropped as well. -/
theorem C8_blocked_sender_not_delivered_witness :
    (handleChatMessage "n1" "alice" "10.0.0.1:8888"
      [("x", { zeroPeer with ID := "x", Address := "10.0.0.9:8888" })]
      [("10.0.0.1:8888", [("10.0.0.9:8888", false)])]
      { zeroMessage with Typ := "chat", From := "x", To := "all" } =
      Option.none) ∧
    (handleChatMessage "n1" "alice" "10.0.0.1:8888"
      [("x", { zeroPeer with ID := "x", Address := "10.0.0.9:8888" })]
      [("10.0.0.1:8888", [("10.0.0.9:8888", false)])]
      { zeroMessage with Typ := "chat", From := "x", To := "n1" } =
      Option.none) := by
  constructor
  · exact C8_blocked_sender_not_delivered "n1" "alice" "10.0.0.1:8888"
      [("x", { zeroPeer with ID := "x", Address := "10.0.0.9:8888" })]
      [("10.0.0.1:8888", [("10.0.0.9:8888", false)])]
      { zeroMessage with Typ := "chat", From := "x", To := "all" }
      { zeroPeer with ID := "x", Address := "10.0.0.9:8888" }
      (by decide) (by decide)
  · exact C8_blocked_sender_not_delivered "n1" "alice" "10.0.0.1:8888"
      [("x", { zeroPeer with ID := "x", Address := "10.0.0.9:8888" })]
      [("10.0.0.1:8888", [("10.0.0.9:8888", false)])]
      { zeroMessage with Typ := "chat", From := "x", To := "n1" }
      { zeroPeer with ID := "x", Address := "10.0.0.9:8888" }
      (by decide) (by decide)

/-- C9: an inbound chat message whose From ID has no registry entry at
dispatch time is dropped entirely — no delivery record, hence no UI
callback, no persistence and no placeholder, for any message contents,
encryption state or block-list state (the unguarded exists check of
network.go 410-413). -/
theorem C9_unknown_sender_dropped
    (nodeID nodeName nodeAddress : String) (peers : PeerMap) (acls : ACLMap)
    (msg : Message)
    (hfrom : mapLookup peers msg.From = Option.none) :
    handleChatMessage nodeID nodeName nodeAddress peers acls msg =
      Option.none := by
  simp [handleChatMessage, hfrom]

/-- C9 witness: an encrypted chat from an unregistered sender y is
dropped on a node with an empty registry. -/
theorem C9_unknown_sender_dropped_witness :
    handleChatMessage "n1" "alice" "10.0.0.1:8888" [] []
      { zeroMessage with
          Typ := "chat", From := "y", To := "all", Encrypted := true,
          Nonce := [1], Ciphertext := [2, 3] } = Option.none :=
  C9_unknown_sender_dropped "n1" "alice" "10.0.0.1:8888" [] []
    { zeroMessage with
        Typ := "chat", From := "y", To := "all", Encrypted := true,
        Nonce := [1], Ciphertext := [2, 3] }
    (by decide)

/-- C10: a received file_chunk whose file ID has no entry in the
transfer table is discarded with no effect — the table is returned
unchanged (no entry created, no progress update) and nothing is
written to disk (handleFileChunk, filetransfer.go 341-348). -/
theorem C10_unknown_file_chunk_discarded
    (transfers : TransferMap) (peers : PeerMap) (chunk : FileChunk) (now : Nat)
    (hid : mapLookup transfers chunk.FileID = Option.none) :
    handleFileChunk transfers peers chunk now = ⟨transfers, Option.none⟩ := by
  unfold handleFileChunk
  rw [hid]

/-- C10 witness: a chunk for unknown file id f arriving at an empty
transfer table is discarded without any write. -/
theorem C10_unknown_file_chunk_discarded_witness :
    handleFileChunk [] [("x", zeroPeer)]
      { Typ := "file_chunk", FileID := "f", ChunkNum := 1, TotalChunks := 1,
        Data := [1, 2], Timestamp := 0, Encrypted := false, Nonce := [],
        Ciphertext := [] } 3 =
      ⟨[], Option.none⟩ :=
  C10_unknown_file_chunk_discarded [] [("x", zeroPeer)]
    { Typ := "file_chunk", FileID := "f", ChunkNum := 1, TotalChunks := 1,
      Data := [1, 2], Timestamp := 0, Encrypted := false, Nonce := [],
      Ciphertext := [] } 3 (by decide)

/-! ### Claim C7 -/

lemma findPeerIDByName_lookup_isSome :
    ∀ (ps : PeerMap) (name pid : String),
      findPeerIDByName ps name = some pid → ∃ p, mapLookup ps pid = some p := by
  intro ps
  induction ps with
  | nil => intro name pid h; exact absurd h (by simp [findPeerIDByName])
  | cons hd rest ih =>
    intro name pid h
    cases hd with
    | mk k p =>
      by_cases hn : p.Name = name
      · rw [findPeerIDByName, if_pos hn, Option.some.injEq] at h
        subst h
        exact ⟨p, by simp [mapLookup]⟩
      · rw [findPeerIDByName, if_neg hn] at h
        obtain ⟨q, hq⟩ := ih name pid h
        by_cases hk : k = pid
        · exact ⟨p, by simp [mapLookup, hk]⟩
        · refine ⟨q, ?_⟩
          rw [mapLookup, if_neg hk]
          exact hq

/-- C7: when a recipient rejects a file_request, both sides delete the
pending entry and no chunk is ever sent for that transfer — the sender
processing file_response with accepted false removes the entry from
its transfer map and spawns no sendFile; a subsequent sendFile run for
that file ID sends no chunks and a later duplicate response cannot
start one; the rejecting recipient removes its own pending entry and
writes a file_response with accepted false back to the requesting peer
(handleFileTransferResponse, filetransfer.go 189-214, and
respondToFileTransfer, filetransfer.go 125-186). -/
theorem C7_rejection_removes_both_entries
    (transfers transfersR : TransferMap) (peers peersR : PeerMap)
    (response : FileTransferResponse) (t tr : FileTransferStatus)
    (fileID pid : String) (now : Nat) (content : Bytes) (entropy : Nat → Nat)
    (hresp : response.Accepted = false)
    (hsend : mapLookup transfers response.FileID = some t)
    (hrecv : mapLookup transfersR fileID = some tr)
    (hdir : tr.Direction = "receive")
    (hfind : findPeerIDByName peersR tr.PeerName = some pid) :
    (mapLookup (handleFileTransferResponse transfers response).Transfers
      response.FileID = Option.none) ∧
    ((handleFileTransferResponse transfers response).StartedSendOf =
      Option.none) ∧
    (sendFile (handleFileTransferResponse transfers response).Transfers peers
      response.FileID content entropy now =
      ⟨(handleFileTransferResponse transfers response).Transfers, []⟩) ∧
    (∀ response2 : FileTransferResponse, response2.FileID = response.FileID →
      (handleFileTransferResponse
        (handleFileTransferResponse transfers response).Transfers
        response2).StartedSendOf = Option.none) ∧
    (mapLookup (respondToFileTransfer transfersR peersR fileID false
      now).Transfers fileID = Option.none) ∧
    (∃ r, (respondToFileTransfer transfersR peersR fileID false
        now).SentResponse = some (pid, r) ∧ r.Accepted = false) := by
  have hsender : handleFileTransferResponse transfers response =
      ⟨mapErase transfers response.FileID, Option.none⟩ := by
    unfold handleFileTransferResponse
    rw [hsend]
    exact if_neg (by rw [hresp]; exact Bool.false_ne_true)
  have herased : mapLookup (handleFileTransferResponse transfers
      response).Transfers response.FileID = Option.none := by
    rw [hsender]
    exact mapLookup_erase_self transfers response.FileID
  obtain ⟨p, hp⟩ := findPeerIDByName_lookup_isSome peersR tr.PeerName pid hfind
  have hrespond : respondToFileTransfer transfersR peersR fileID false now =
      ⟨mapErase transfersR fileID,
       some (pid, { Typ := "file_response", FileID := fileID,
                    Accepted := false, Message := "文件传输被拒绝",
                    Timestamp := now })⟩ := by
    simp only [respondToFileTransfer, hrecv, hdir, hfind, hp, ne_eq,
      not_true_eq_false, if_false, Bool.false_eq_true]
  refine ⟨herased, by rw [hsender], ?_, ?_, ?_, ?_⟩
  · unfold sendFile
    rw [herased, hsender]
  · intro response2 hid2
    rw [hsender]
    unfold handleFileTransferResponse
    rw [hid2, mapLookup_erase_self]
  · rw [hrespond]
    exact mapLookup_erase_self transfersR fileID
  · rw [hrespond]
    exact ⟨_, rfl, rfl⟩

/-- C7 witness: sender node deletes its entry for file f upon the
rejection and starts no send; recipient bob-side state deletes its own
pending receive entry and answers the requester x with accepted
false. -/
theorem C7_rejection_removes_both_entries_witness :
    (mapLookup (handleFileTransferResponse
      [("f", { zeroTransfer with
                 FileID := "f", Direction := "send", PeerName := "bob" })]
      { Typ := "file_response", FileID := "f", Accepted := false,
        Message := "", Timestamp := 0 }).Transfers "f" = Option.none) ∧
    ((handleFileTransferResponse
      [("f", { zeroTransfer with
                 FileID := "f", Direction := "send", PeerName := "bob" })]
      { Typ := "file_response", FileID := "f", Accepted := false,
        Message := "", Timestamp := 0 }).StartedSendOf = Option.none) ∧
    (mapLookup (respondToFileTransfer
      [("f", { zeroTransfer with
                 FileID := "f", Direction := "receive", PeerName := "bob" })]
      [("x", { zeroPeer with ID := "x", Name := "bob" })]
      "f" false 4).Transfers "f" = Option.none) := by
  have h := C7_rejection_removes_both_entries
    [("f", { zeroTransfer with
               FileID := "f", Direction := "send", PeerName := "bob" })]
    [("f", { zeroTransfer with
               FileID := "f", Direction := "receive", PeerName := "bob" })]
    [] [("x", { zeroPeer with ID := "x", Name := "bob" })]
    { Typ := "file_response", FileID := "f", Accepted := false,
      Message := "", Timestamp := 0 }
    { zeroTransfer with FileID := "f", Direction := "send", PeerName := "bob" }
    { zeroTransfer with FileID := "f", Direction := "receive", PeerName := "bob" }
    "f" "x" 4 [1, 2] (fun _ => 0)
    (by decide) (by decide) (by decide) (by decide) (by decide)
  exact ⟨h.1, h.2.1, h.2.2.2.2.1⟩

/-! ### Claim C5 -/

lemma chunksOf_flatten (c : Bytes) : (chunksOf c).flatten = c := by
  induction c using chunksOf.induct with
  | case1 => rw [chunksOf]; rfl
  | case2 c hc ih =>
    rw [chunksOf, dif_neg hc]
    simp only [List.flatten_cons]
    rw [ih, List.take_append_drop]

lemma chunksOf_eq_range_map (c : Bytes) :
    chunksOf c = (List.range (totalChunksOf c.length)).map
      (fun i => (c.drop (chunkSize * i)).take chunkSize) := by
  induction c using chunksOf.induct with
  | case1 => rw [chunksOf]; rfl
  | case2 c hc ih =>
    have h0 : 0 < c.length := List.length_pos.mpr hc
    have hk : totalChunksOf c.length =
        totalChunksOf (c.drop chunkSize).length + 1 := by
      simp only [totalChunksOf, List.length_drop, chunkSize]
      omega
    have hfun : ((fun i => (c.drop (chunkSize * i)).take chunkSize) ∘
          (fun i => i + 1)) =
        (fun i => ((c.drop chunkSize).drop (chunkSize * i)).take chunkSize) := by
      funext i
      simp only [Function.comp_apply, List.drop_drop]
      congr 2
      ring
    rw [chunksOf, dif_neg hc, ih, hk, List.range_succ_eq_map, List.map_cons,
      List.map_map, hfun]
    simp

lemma numberChunks_range' (fileID : String) (total now : Nat) (g : Nat → Bytes) :
    ∀ (n s : Nat), numberChunks fileID total now s ((List.range' s n).map g) =
      (List.range' s n).map (fun i =>
        { Typ := "file_chunk", FileID := fileID, ChunkNum := i + 1,
          TotalChunks := total, Data := g i, Timestamp := now,
          Encrypted := false, Nonce := [], Ciphertext := [] }) := by
  intro n
  induction n with
  | zero => intro s; rfl
  | succ m ih =>
    intro s
    rw [List.range'_succ, List.map_cons, List.map_cons, numberChunks, ih]

/-- Explicit closed form of the chunk stream: chunk i carries the
bytes from offset chunkSize * i with 1-based sequence number. -/
lemma sendFileChunks_eq (fileID : String) (content : Bytes) (now : Nat) :
    sendFileChunks fileID content now =
      (List.range (totalChunksOf content.length)).map (fun i =>
        { Typ := "file_chunk", FileID := fileID, ChunkNum := i + 1,
          TotalChunks := totalChunksOf content.length,
          Data := (content.drop (chunkSize * i)).take chunkSize,
          Timestamp := now, Encrypted := false, Nonce := [],
          Ciphertext := [] }) := by
  rw [sendFileChunks, chunksOf_eq_range_map, List.range_eq_range']
  exact numberChunks_range' fileID (totalChunksOf content.length) now _ _ 0

/-- C5: for a file of N bytes, sendFile produces exactly
ceil(N / 64 KB) chunks, numbered 1 .. ceil(N / 64 KB), each carrying
that total count; every chunk except the last holds exactly 64 KB,
the last holds the non-empty remainder of at most 64 KB; and
concatenating the chunk payloads in sequence order reproduces the file
bytes exactly (sendFile, filetransfer.go 217-327). -/
theorem C5_chunking_roundtrip (fileID : String) (content : Bytes) (now : Nat) :
    (sendFileChunks fileID content now).length = totalChunksOf content.length ∧
    (∀ i (h : i < (sendFileChunks fileID content now).length),
      ((sendFileChunks fileID content now).get ⟨i, h⟩).ChunkNum = i + 1 ∧
      ((sendFileChunks fileID content now).get ⟨i, h⟩).TotalChunks =
        totalChunksOf content.length ∧
      (i + 1 < totalChunksOf content.length →
        ((sendFileChunks fileID content now).get ⟨i, h⟩).Data.length =
          chunkSize) ∧
      (i + 1 = totalChunksOf content.length →
        0 < ((sendFileChunks fileID content now).get ⟨i, h⟩).Data.length ∧
        ((sendFileChunks fileID content now).get ⟨i, h⟩).Data.length ≤
          chunkSize ∧
        ((sendFileChunks fileID content now).get ⟨i, h⟩).Data.length =
          content.length - chunkSize * i)) ∧
    ((sendFileChunks fileID content now).map (fun ch => ch.Data)).flatten =
      content := by
  have hlen : (sendFileChunks fileID content now).length =
      totalChunksOf content.length := by
    rw [sendFileChunks_eq, List.length_map, List.length_range]
  refine ⟨hlen, ?_, ?_⟩
  · intro i h
    have hik : i < totalChunksOf content.length := hlen ▸ h
    have hget : (sendFileChunks fileID content now).get ⟨i, h⟩ =
        { Typ := "file_chunk", FileID := fileID, ChunkNum := i + 1,
          TotalChunks := totalChunksOf content.length,
          Data := (content.drop (chunkSize * i)).take chunkSize,
          Timestamp := now, Encrypted := false, Nonce := [],
          Ciphertext := [] } := by
      rw [List.get_of_eq (sendFileChunks_eq fileID content now)]
      simp
    rw [hget]
    have hdlen : ((content.drop (chunkSize * i)).take chunkSize).length =
        min chunkSize (content.length - chunkSize * i) := by
      rw [List.length_take, List.length_drop]
    refine ⟨rfl, rfl, ?_, ?_⟩
    · intro hlt
      rw [hdlen]
      simp only [totalChunksOf, chunkSize] at hik hlt ⊢
      omega
    · intro heq
      rw [hdlen]
      simp only [totalChunksOf, chunkSize] at hik heq ⊢
      omega
  · have hmap : (sendFileChunks fileID content now).map (fun ch => ch.Data) =
        chunksOf content := by
      rw [sendFileChunks_eq, chunksOf_eq_range_map, List.map_map]
      rfl
    rw [hmap, chunksOf_flatten]

/-- C5 witness: a 3-byte file yields a single chunk numbered 1 of 1
with all three bytes, and reassembly returns the file. -/
theorem C5_chunking_roundtrip_witness :
    (sendFileChunks "f" [10, 11, 12] 0).length = 1 ∧
    ((sendFileChunks "f" [10, 11, 12] 0).map (fun ch => ch.Data)).flatten =
      [10, 11, 12] ∧
    ((sendFileChunks "f" [10, 11, 12] 0).get
      ⟨0, by rw [(C5_chunking_roundtrip "f" [10, 11, 12] 0).1]; decide⟩).Data.length
      = 3 := by
  have h := C5_chunking_roundtrip "f" [10, 11, 12] 0
  refine ⟨by rw [h.1]; decide, h.2.2, ?_⟩
  have h0 := h.2.1 0 (by rw [h.1]; decide)
  have h3 := (h0.2.2.2 (by decide)).2.2
  rw [h3]
  decide

/-! ### Claim C3 -/

lemma mapInsert_mapInsert {α : Type} (m : List (String × α)) (k : String)
    (v v' : α) : mapInsert (mapInsert m k v) k v' = mapInsert m k v' := by
  simp [mapInsert, List.filter_cons, List.filter_filter]

/-- Net effect of one handleFileChunk call on the transfer entry it
updates: progress advanced by the chunk size, then the completion
check of filetransfer.go 413-420. -/
def chunkStep (t : FileTransferStatus) (dlen : Int) (now : Nat) :
    FileTransferStatus :=
  if t.FileSize ≤ t.Progress + dlen then
    { progressUpdate t dlen now with Status := "completed", EndTime := now }
  else progressUpdate t dlen now

lemma chunkStep_Progress (t : FileTransferStatus) (d : Int) (now : Nat) :
    (chunkStep t d now).Progress = t.Progress + d := by
  unfold chunkStep
  split <;> rfl

lemma chunkStep_FileSize (t : FileTransferStatus) (d : Int) (now : Nat) :
    (chunkStep t d now).FileSize = t.FileSize := by
  unfold chunkStep
  split <;> rfl

lemma chunkStep_Status (t : FileTransferStatus) (d : Int) (now : Nat) :
    (chunkStep t d now).Status =
      if t.FileSize ≤ t.Progress + d then "completed" else "transferring" := by
  unfold chunkStep
  by_cases h : t.FileSize ≤ t.Progress + d
  · rw [if_pos h, if_pos h]
  · rw [if_neg h, if_neg h]; rfl

lemma handleFileChunk_plain_eq (transfers : TransferMap) (peers : PeerMap)
    (chunk : FileChunk) (now : Nat) (t : FileTransferStatus)
    (hid : mapLookup transfers chunk.FileID = some t)
    (henc : chunk.Encrypted = false) :
    handleFileChunk transfers peers chunk now =
      ⟨mapInsert transfers chunk.FileID
        (chunkStep t (chunk.Data.length : Int) now),
       some ("downloads/" ++ t.FileName, chunk.Data)⟩ := by
  simp only [handleFileChunk, hid, henc, Bool.false_eq_true, false_and,
    if_false, updateTransferProgress, mapLookup_insert_self]
  by_cases hc : t.FileSize ≤ t.Progress + (chunk.Data.length : Int)
  · rw [if_pos (show (progressUpdate t (chunk.Data.length : Int) now).FileSize ≤
        (progressUpdate t (chunk.Data.length : Int) now).Progress from hc)]
    rw [mapInsert_mapInsert]
    simp only [chunkStep, if_pos hc]
  · rw [if_neg (show ¬ (progressUpdate t (chunk.Data.length : Int) now).FileSize ≤
        (progressUpdate t (chunk.Data.length : Int) now).Progress from hc)]
    simp only [chunkStep, if_neg hc]

lemma receiveChunks_progress_spec (peers : PeerMap) :
    ∀ (cts : List (FileChunk × Nat)) (transfers : TransferMap) (fid : String)
      (t : FileTransferStatus),
      mapLookup transfers fid = some t →
      (∀ p ∈ cts, p.1.FileID = fid ∧ p.1.Encrypted = false) →
      ∀ n, n ≤ cts.length →
        ∃ t', mapLookup (receiveChunks peers transfers (cts.take n)) fid =
            some t' ∧
          t'.Progress = t.Progress +
            ((cts.take n).map (fun p => (p.1.Data.length : Int))).sum ∧
          t'.FileSize = t.FileSize ∧
          t'.Status = (if n = 0 then t.Status else
            if t.FileSize ≤ t.Progress +
                ((cts.take n).map (fun p => (p.1.Data.length : Int))).sum
            then "completed" else "transferring") := by
  intro cts
  induction cts with
  | nil =>
    intro transfers fid t hid _ n hn
    have hn0 : n = 0 := Nat.le_zero.mp hn
    subst hn0
    exact ⟨t, hid, by simp, rfl, by simp⟩
  | cons p rest ih =>
    intro transfers fid t hid hall n hn
    match n with
    | 0 => exact ⟨t, hid, by simp, rfl, by simp⟩
    | Nat.succ m =>
      obtain ⟨hcfid, hcenc⟩ := hall p (List.mem_cons_self p rest)
      have hidc : mapLookup transfers p.1.FileID = some t := by
        rw [hcfid]; exact hid
      have hstep := handleFileChunk_plain_eq transfers peers p.1 p.2 t hidc hcenc
      have hid1 : mapLookup (handleFileChunk transfers peers p.1 p.2).Transfers
          fid = some (chunkStep t (p.1.Data.length : Int) p.2) := by
        rw [hstep, hcfid]
        exact mapLookup_insert_self _ _ _
      have hrest : ∀ q ∈ rest, q.1.FileID = fid ∧ q.1.Encrypted = false :=
        fun q hq => hall q (List.mem_cons_of_mem p hq)
      obtain ⟨t', h1, h2, h3, h4⟩ :=
        ih (handleFileChunk transfers peers p.1 p.2).Transfers fid
          (chunkStep t (p.1.Data.length : Int) p.2) hid1 hrest m
          (Nat.succ_le_succ_iff.mp hn)
      have htake : ((p :: rest).take (m + 1)) = p :: rest.take m := rfl
      have hfold : receiveChunks peers transfers ((p :: rest).take (m + 1)) =
          receiveChunks peers (handleFileChunk transfers peers p.1 p.2).Transfers
            (rest.take m) := by
        rw [htake]
        cases p with
        | mk c tm => rfl
      refine ⟨t', by rw [hfold]; exact h1, ?_, ?_, ?_⟩
      · rw [h2, chunkStep_Progress, htake]
        simp only [List.map_cons, List.sum_cons]
        ring
      · rw [h3, chunkStep_FileSize]
      · rw [h4, chunkStep_FileSize, chunkStep_Progress, chunkStep_Status, htake]
        simp only [List.map_cons, List.sum_cons]
        by_cases hm : m = 0
        · subst hm
          simp [add_assoc]
        · rw [if_neg hm, if_neg (Nat.succ_ne_zero m)]
          have harith : t.Progress + (p.1.Data.length : Int) +
              ((rest.take m).map (fun p => (p.1.Data.length : Int))).sum =
              t.Progress + ((p.1.Data.length : Int) +
                ((rest.take m).map (fun p => (p.1.Data.length : Int))).sum) := by
            ring
          rw [harith]

lemma sum_take_mono (l : List Int) (hl : ∀ x ∈ l, 0 ≤ x) (m n : Nat)
    (hmn : m ≤ n) : (l.take m).sum ≤ (l.take n).sum := by
  have h1 : (l.take n).take m ++ (l.take n).drop m = l.take n :=
    List.take_append_drop _ _
  rw [List.take_take, min_eq_left hmn] at h1
  rw [← h1, List.sum_append]
  have h2 : 0 ≤ ((l.take n).drop m).sum :=
    List.sum_nonneg (fun x hx =>
      hl x (List.mem_of_mem_take (List.mem_of_mem_drop hx)))
  exact le_add_of_nonneg_right h2

/-- C3: for a receive-side transfer whose chunk payloads sum to the
declared FileSize, the entry's Progress after n chunks equals the sum
of the first n payload sizes — hence non-decreasing in n and never
exceeding FileSize — and after any processed chunk the Status is
completed exactly when Progress equals FileSize (handleFileChunk and
updateTransferProgress, filetransfer.go 341-458). -/
theorem C3_progress_monotone_and_completion
    (peers : PeerMap) (transfers : TransferMap) (fid : String)
    (t0 : FileTransferStatus) (cts : List (FileChunk × Nat))
    (hid : mapLookup transfers fid = some t0)
    (hp0 : t0.Progress = 0)
    (hsize : t0.FileSize = ((cts.map (fun p => (p.1.Data.length : Int))).sum))
    (hchunks : ∀ p ∈ cts, p.1.FileID = fid ∧ p.1.Encrypted = false) :
    (∀ n, n ≤ cts.length →
      ∃ t', mapLookup (receiveChunks peers transfers (cts.take n)) fid =
          some t' ∧
        t'.Progress = ((cts.take n).map (fun p => (p.1.Data.length : Int))).sum ∧
        t'.FileSize = t0.FileSize ∧
        0 ≤ t'.Progress ∧ t'.Progress ≤ t0.FileSize ∧
        (0 < n → (t'.Status = "completed" ↔ t'.Progress = t0.FileSize))) ∧
    (∀ m n, m ≤ n → n ≤ cts.length →
      ((cts.take m).map (fun p => (p.1.Data.length : Int))).sum ≤
        ((cts.take n).map (fun p => (p.1.Data.length : Int))).sum) := by
  have hnonneg : ∀ x ∈ cts.map (fun p => (p.1.Data.length : Int)), 0 ≤ x := by
    intro x hx
    obtain ⟨q, _, hq⟩ := List.mem_map.mp hx
    rw [← hq]
    exact Int.natCast_nonneg _
  have hmono : ∀ m n, m ≤ n → n ≤ cts.length →
      ((cts.take m).map (fun p => (p.1.Data.length : Int))).sum ≤
        ((cts.take n).map (fun p => (p.1.Data.length : Int))).sum := by
    intro m n hmn _
    rw [List.map_take, List.map_take]
    exact sum_take_mono _ hnonneg m n hmn
  refine ⟨?_, hmono⟩
  intro n hn
  obtain ⟨t', h1, h2, h3, h4⟩ :=
    receiveChunks_progress_spec peers cts transfers fid t0 hid hchunks n hn
  have hple : ((cts.take n).map (fun p => (p.1.Data.length : Int))).sum ≤
      t0.FileSize := by
    rw [hsize]
    have := hmono n cts.length hn (le_refl _)
    rwa [List.take_length] at this
  rw [hp0, zero_add] at h2 h4
  have hnn : 0 ≤ ((cts.take n).map (fun p => (p.1.Data.length : Int))).sum := by
    apply List.sum_nonneg
    intro x hx
    apply hnonneg
    rw [List.map_take] at hx
    exact List.mem_of_mem_take hx
  refine ⟨t', h1, h2, h3, by rw [h2]; exact hnn, by rw [h2]; exact hple, ?_⟩
  intro hnpos
  have hn0 : ¬ n = 0 := Nat.pos_iff_ne_zero.mp hnpos
  rw [if_neg hn0] at h4
  constructor
  · intro hcomp
    rw [h4] at hcomp
    by_cases hge : t0.FileSize ≤
        ((cts.take n).map (fun p => (p.1.Data.length : Int))).sum
    · rw [h2]
      omega
    · rw [if_neg hge] at hcomp
      exact absurd hcomp (by decide)
  · intro heq
    rw [h2] at heq
    rw [h4, if_pos (le_of_eq heq.symm)]

/-- Sample receive-side pending transfer of 5 bytes for the C3
witness. -/
def demoRecvTransfer : FileTransferStatus :=
  { zeroTransfer with
      FileID := "f", FileName := "a.txt", FileSize := 5,
      Status := "transferring", Direction := "receive", PeerID := "x" }

/-- Sample unencrypted chunk carrying the given payload. -/
def demoPlainChunk (num : Nat) (data : Bytes) : FileChunk :=
  { Typ := "file_chunk", FileID := "f", ChunkNum := num, TotalChunks := 2,
    Data := data, Timestamp := 0, Encrypted := false, Nonce := [],
    Ciphertext := [] }

/-- C3 witness: a 5-byte transfer receiving chunks of 3 and 2 bytes
ends with Progress 5 and Status completed. -/
theorem C3_progress_monotone_and_completion_witness :
    ∃ t', mapLookup (receiveChunks [] [("f", demoRecvTransfer)]
        ([(demoPlainChunk 1 [1, 2, 3], 1), (demoPlainChunk 2 [4, 5], 2)].take 2))
        "f" = some t' ∧
      t'.Progress = 5 ∧ t'.Status = "completed" := by
  have h := C3_progress_monotone_and_completion [] [("f", demoRecvTransfer)]
    "f" demoRecvTransfer
    [(demoPlainChunk 1 [1, 2, 3], 1), (demoPlainChunk 2 [4, 5], 2)]
    (by decide) (by decide) (by decide) (by decide)
  obtain ⟨t', h1, h2, h3, h4, h5, h6⟩ := h.1 2 (by decide)
  have hprog : t'.Progress = 5 := by rw [h2]; decide
  refine ⟨t', h1, hprog, ?_⟩
  exact (h6 (by decide)).mpr (by rw [hprog]; decide)

end LANShare
